import Mathlib

/-!
Verification of the Ariamis DOM-creation library (`src/elem.ts`, `src/dom.ts`,
`src/rawHtml.ts`, `src/fragment.ts`) against its specification.

The TypeScript source is shallowly embedded: JavaScript runtime values that the
argument disambiguator inspects are modelled by the inductive type `JSVal`
(arrays, plain objects as ordered key-value lists, strings, numbers, booleans,
functions identified by a tag, and `undefined`); the DOM element produced by the
builder is modelled by `ElementData`, which records the property assignments,
the `addEventListener` registrations, and the appended child nodes in the order
the code performs them.
-/

namespace Ariamis

/-- A JavaScript runtime value, as far as the library inspects one.
Objects are ordered association lists (object keys are unique per the spec's
data model); functions carry an identifying tag so that distinct handlers are
distinguishable; `undefinedVal` is JavaScript `undefined` (an omitted
optional argument). -/
inductive JSVal where
  | undefinedVal : JSVal
  | bool : Bool → JSVal
  | num : Int → JSVal
  | str : String → JSVal
  | fn : Nat → JSVal
  | arr : List JSVal → JSVal
  | obj : List (String × JSVal) → JSVal
deriving Repr

/-- `Array.isArray(v)`. -/
def jsIsArray : JSVal → Bool
  | .arr _ => true
  | _ => false

/-- `v === undefined`. -/
def isUndefined : JSVal → Bool
  | .undefinedVal => true
  | _ => false

/-- `typeof v === "function"`. -/
def jsIsFunction : JSVal → Bool
  | .fn _ => true
  | _ => false

/-- JavaScript property access `v[key]` on the values the library reads it
from: lookup in an object, `undefined` for a missing key and for the
non-object values reachable here (property access on a primitive, a function
or an array without such a property yields `undefined`). -/
def getProp : JSVal → String → JSVal
  | .obj kvs, key => ((kvs.find? (fun kv => kv.1 = key)).map (fun kv => kv.2)).getD .undefinedVal
  | _, _ => .undefinedVal

/-- The keys enumerated by `for (const k in v)` together with their values:
the object's own entries in insertion order; nothing for the non-object
values the library feeds to such loops. -/
def objEntries : JSVal → List (String × JSVal)
  | .obj kvs => kvs
  | _ => []

/-- `distinguishAriamisArgs` from `src/elem.ts` (lines 74-106).  The source
initialises `attr = {}`, `listeners = {}`, `children = []` and then runs three
sequential conditionals:

* `if (Array.isArray(arg1)) children = arg1; else if (arg1 !== undefined) attr = arg1;`
* `if (Array.isArray(arg2)) children = arg2; else if (arg2 !== undefined) listeners = arg2;`
* `if (arg3 !== undefined) children = arg3;`

returning `[attr, listeners, children]`.  The sequential reassignments are
embedded as shadowing `let`s. -/
def distinguishAriamisArgs (arg1 arg2 arg3 : JSVal) : JSVal × JSVal × JSVal :=
  let attr : JSVal := JSVal.obj []
  let listeners : JSVal := JSVal.obj []
  let children : JSVal := JSVal.arr []
  let step1 : JSVal × JSVal :=
    if jsIsArray arg1 then (attr, arg1)
    else if isUndefined arg1 then (attr, children)
    else (arg1, children)
  let attr := step1.1
  let children := step1.2
  let step2 : JSVal × JSVal :=
    if jsIsArray arg2 then (listeners, arg2)
    else if isUndefined arg2 then (listeners, children)
    else (arg2, children)
  let listeners := step2.1
  let children := step2.2
  let children := if isUndefined arg3 then children else arg3
  (attr, listeners, children)

/-- `distinguishElemArgs` from `src/elem.ts`: it delegates to
`distinguishAriamisArgs` at the element types (the generics are erased at
runtime, so the delegation is the identity on behaviour). -/
def distinguishElemArgs (arg1 arg2 arg3 : JSVal) : JSVal × JSVal × JSVal :=
  distinguishAriamisArgs arg1 arg2 arg3

/-- One `addEventListener` call made by the builder, recorded with the exact
arguments: the event name, the callback value passed, and the third argument
(`none` when the two-argument form `addEventListener(k, listener)` was used,
so the host applies its default registration options; `some o` when the
three-argument form passed `o`, which may itself be `undefined`). -/
structure Registration where
  eventName : String
  callback : JSVal
  optionsArg : Option JSVal
deriving Repr

/-- A node appended to the element: `elem.append` turns a string argument
into a text node and appends a node argument as-is (the `Children` type of
`src/dom.ts` is `(Node | string)[]`). -/
inductive ChildNode where
  | textNode : String → ChildNode
  | nodeChild : JSVal → ChildNode
deriving Repr

/-- The observable state of the one host element the builder constructs:
its tag name, the property assignments `elem[key] = attrs[key]` in loop
order, the listener registrations in loop order, and the appended children
in order. -/
structure ElementData where
  tag : String
  props : List (String × JSVal)
  regs : List Registration
  childNodes : List ChildNode
deriving Repr

/-- One argument of `elem.append(...)`: a string becomes a text node, a
node is appended as-is. -/
def appendArg : JSVal → ChildNode
  | .str s => .textNode s
  | v => .nodeChild v

/-- `elem.append(...children)`: the spread of the children array, each
argument appended via `appendArg`.  The `Children` contract makes the
spread argument an array; a non-array is not spreadable and contributes
nothing here. -/
def spreadChildren : JSVal → List ChildNode
  | .arr xids => xids.map appendArg
  | _ => []

/-- `createElement` from `src/elem.ts` (lines 108-134):
`document.createElement(tag)`, then `for (const key in attrs)
elem[key] = attrs[key]`, then for each listener entry
`if (typeof listener === "function") elem.addEventListener(k, listener)
else elem.addEventListener(k, listener.handler, listener.options)`, then
`elem.append(...children)`, returning the element.  Each `for` loop is
embedded as a left fold over the enumerated entries. -/
def createElement (t : String) (attrs listeners children : JSVal) : ElementData :=
  let e : ElementData := { tag := t, props := [], regs := [], childNodes := [] }
  let e := (objEntries attrs).foldl
    (fun acc kv => { acc with props := acc.props ++ [kv] }) e
  let e := (objEntries listeners).foldl
    (fun acc kv =>
      if jsIsFunction kv.2 then
        { acc with regs := acc.regs ++
            [{ eventName := kv.1, callback := kv.2, optionsArg := none }] }
      else
        { acc with regs := acc.regs ++
            [{ eventName := kv.1, callback := getProp kv.2 "handler",
               optionsArg := some (getProp kv.2 "options") }] }) e
  { e with childNodes := e.childNodes ++ spreadChildren children }

/-- `elem` from `src/elem.ts` (lines 145-147):
`createElement(tag, ...distinguishElemArgs(elemArgs))`. -/
def elem (t : String) (arg1 arg2 arg3 : JSVal) : ElementData :=
  let resolved := distinguishElemArgs arg1 arg2 arg3
  createElement t resolved.1 resolved.2.1 resolved.2.2

/-- `tag` from `src/elem.ts` (lines 198-200): the tag-bound constructor
`(...args) => elem(tag, ...args)`. -/
def tag (t : String) : JSVal → JSVal → JSVal → ElementData :=
  fun arg1 arg2 arg3 => elem t arg1 arg2 arg3

/-! ### The `rawHtml` helper (`src/rawHtml.ts`)

`rawHtml(html)` sets `div.innerHTML = html` (the host markup parser, an
external collaborator) and then runs
`for (let i = 0; i < elem.childNodes.length; i++) frag.append(elem.childNodes[i])`.
`childNodes` is a live list and `frag.append` moves the node out of the div,
so each iteration both advances `i` and shortens the list.  The parsed DOM
nodes are modelled by `HNode`; the loop is modelled on the list of parsed
nodes, with the state being the div's remaining child list and the
fragment's accumulated child list. -/

/-- A parsed DOM node: an element with a tag and children, or a text node. -/
inductive HNode where
  | elementNode : String → List HNode → HNode
  | textNode : String → HNode
deriving Repr

/-- The `for` loop of `rawHtml`: index `i`, the div's live `childNodes`
list, and the fragment's children.  While `i < childNodes.length`, the node
`childNodes[i]` is appended to the fragment, which removes it from the
div's live list; then `i` is incremented.  Returns the final
(div children, fragment children) pair. -/
def moveChildNodesLoop (i : Nat) (divChildNodes fragChildren : List HNode) :
    List HNode × List HNode :=
  if h : i < divChildNodes.length then
    moveChildNodesLoop (i + 1) (divChildNodes.eraseIdx i)
      (fragChildren ++ [divChildNodes.get ⟨i, h⟩])
  else
    (divChildNodes, fragChildren)
termination_by divChildNodes.length - i
decreasing_by simp [List.length_eraseIdx, h]; omega

/-- `rawHtml` from `src/rawHtml.ts` (lines 4-15), modelled from the point
where the host parser has produced the div's child nodes: the extraction
loop starting at index 0 with an empty fragment, returning the fragment's
children. -/
def rawHtml (parsedNodes : List HNode) : List HNode :=
  (moveChildNodesLoop 0 parsedNodes []).2

/-- Modelled from the spec: the host markup parser's output for the input
string `"<p>x</p><p>y</p>"` — two `p` elements, the first containing the
text `"x"`, the second the text `"y"`.  The parser itself is a host
collaborator outside this repository. -/
def parsedTwoParagraphs : List HNode :=
  [HNode.elementNode "p" [HNode.textNode "x"],
   HNode.elementNode "p" [HNode.textNode "y"]]

/-! ### Helper lemmas -/

/-- The registration one iteration of the listener loop performs for the
entry `(k, listener)`: the two-argument call for a bare function, the
three-argument call with `listener.handler` and `listener.options` for
anything else. -/
def registrationOfEntry (kv : String × JSVal) : Registration :=
  if jsIsFunction kv.2 then
    { eventName := kv.1, callback := kv.2, optionsArg := none }
  else
    { eventName := kv.1, callback := getProp kv.2 "handler",
      optionsArg := some (getProp kv.2 "options") }

lemma attrsFoldl (l : List (String × JSVal)) (e : ElementData) :
    l.foldl (fun acc kv => { acc with props := acc.props ++ [kv] }) e
      = { e with props := e.props ++ l } := by
  induction l generalizing e with
  | nil => simp
  | cons hd tl ih => simp [List.foldl_cons, ih]

lemma listenersFoldl (l : List (String × JSVal)) (e : ElementData) :
    l.foldl
      (fun acc kv =>
        if jsIsFunction kv.2 then
          { acc with regs := acc.regs ++
              [{ eventName := kv.1, callback := kv.2, optionsArg := none }] }
        else
          { acc with regs := acc.regs ++
              [{ eventName := kv.1, callback := getProp kv.2 "handler",
                 optionsArg := some (getProp kv.2 "options") }] }) e
      = { e with regs := e.regs ++ l.map registrationOfEntry } := by
  induction l generalizing e with
  | nil => simp
  | cons hd tl ih =>
      rw [List.foldl_cons, ih]
      by_cases hf : jsIsFunction hd.2 <;> simp [registrationOfEntry, hf]

/-- `createElement` on well-shaped inputs, characterised in one equation. -/
lemma createElement_eq (t : String) (attrs listeners : List (String × JSVal))
    (children : List JSVal) :
    createElement t (.obj attrs) (.obj listeners) (.arr children)
      = { tag := t, props := attrs,
          regs := listeners.map registrationOfEntry,
          childNodes := children.map appendArg } := by
  simp [createElement, objEntries, spreadChildren, attrsFoldl, listenersFoldl]

/-! ### Claim theorems -/

/-- C1: `distinguishAriamisArgs` implements the three-step classification
rule: a list-shaped `arg1` goes to `children`, an otherwise-present `arg1`
to the properties slot; a list-shaped `arg2` goes to `children`
(overwriting), an otherwise-present `arg2` to the listeners slot; a present
`arg3` goes to `children` unconditionally; every omitted slot defaults to
the empty map or the empty list. -/
theorem distinguishAriamisArgs_classification (a1 a2 a3 : JSVal) :
    distinguishAriamisArgs a1 a2 a3 =
      ((if jsIsArray a1 = false ∧ isUndefined a1 = false then a1 else JSVal.obj []),
       (if jsIsArray a2 = false ∧ isUndefined a2 = false then a2 else JSVal.obj []),
       (if isUndefined a3 = false then a3
        else if jsIsArray a2 then a2
        else if jsIsArray a1 then a1
        else JSVal.arr [])) := by
  simp only [distinguishAriamisArgs]
  split_ifs <;> simp_all

/-- C2 counterexample: with `arg1` a child list and `arg2` a listeners map,
`distinguishAriamisArgs` produces a non-empty listeners slot even though
`arg1` was list-shaped, refuting the claim that a non-empty listeners
output implies `arg1` was a present, non-list-shaped properties map. -/
theorem listeners_reachable_with_list_arg1 :
    (distinguishAriamisArgs (.arr [.str "a"]) (.obj [("click", .fn 0)]) .undefinedVal).2.1
        = JSVal.obj [("click", .fn 0)]
    ∧ (distinguishAriamisArgs (.arr [.str "a"]) (.obj [("click", .fn 0)]) .undefinedVal).2.1
        ≠ JSVal.obj []
    ∧ jsIsArray (.arr [.str "a"]) = true := by
  refine ⟨rfl, ?_, rfl⟩
  simp [distinguishAriamisArgs, jsIsArray, isUndefined]

/-- C2 (amended): a non-empty listeners output constrains `arg2`, not
`arg1` — it implies `arg2` was present and not list-shaped, and the
listeners slot is exactly `arg2`. -/
theorem nonempty_listeners_from_arg2 (a1 a2 a3 : JSVal)
    (h : (distinguishAriamisArgs a1 a2 a3).2.1 ≠ JSVal.obj []) :
    isUndefined a2 = false ∧ jsIsArray a2 = false
    ∧ (distinguishAriamisArgs a1 a2 a3).2.1 = a2 := by
  simp only [distinguishAriamisArgs] at h ⊢
  split_ifs at h ⊢ <;> simp_all

/-- C2 amended-claim witness: a present (even empty) properties map and a
listeners map in the second slot give a non-empty listeners output equal to
`arg2`. -/
theorem nonempty_listeners_from_arg2_witness :
    isUndefined (JSVal.obj [("click", JSVal.fn 0)]) = false
    ∧ jsIsArray (JSVal.obj [("click", JSVal.fn 0)]) = false
    ∧ (distinguishAriamisArgs (.obj []) (.obj [("click", .fn 0)]) .undefinedVal).2.1
        = JSVal.obj [("click", JSVal.fn 0)] :=
  nonempty_listeners_from_arg2 (.obj []) (.obj [("click", .fn 0)]) .undefinedVal
    (by simp [distinguishAriamisArgs, jsIsArray, isUndefined])

/-- C3: on the parse of `"<p>x</p><p>y</p>"` (two `p` elements with texts
`"x"` and `"y"`), `rawHtml`'s extraction loop returns a fragment holding
only the first `p` element — not both parsed nodes in order as the spec
requires — because appending `childNodes[i]` to the fragment removes it
from the live `childNodes` list while `i` still advances. -/
theorem rawHtml_drops_second_paragraph :
    rawHtml parsedTwoParagraphs = [HNode.elementNode "p" [HNode.textNode "x"]]
    ∧ rawHtml parsedTwoParagraphs ≠ parsedTwoParagraphs
    ∧ (rawHtml parsedTwoParagraphs).length = 1 := by
  have h : rawHtml parsedTwoParagraphs
      = [HNode.elementNode "p" [HNode.textNode "x"]] := by
    simp [rawHtml, parsedTwoParagraphs, moveChildNodesLoop]
  refine ⟨h, ?_, ?_⟩ <;> rw [h] <;> simp [parsedTwoParagraphs]

/-- C4: when both `arg1` and `arg2` are list-shaped, the second overwrites
the first in the children slot: for `arg1 = ["a"]` and `arg2 = ["b"]` the
result is empty attrs, empty listeners, and children `["b"]`. -/
theorem second_list_overwrites_children :
    distinguishAriamisArgs (.arr [.str "a"]) (.arr [.str "b"]) .undefinedVal
      = (JSVal.obj [], JSVal.obj [], JSVal.arr [.str "b"]) := rfl

/-- C5: `createElement` creates one element of the given tag, assigns every
attrs entry onto the element, registers every listener entry (a bare
function with the two-argument default-options call, anything else as a
handler/options pair), and appends the children in order with strings
becoming text nodes; concretely,
`createElement "div" {id: "x"} {click: fn} ["hi"]` yields a `div` with
property `id = "x"`, exactly one `click` registration invoking the
function, and exactly one text-node child `"hi"`. -/
theorem createElement_builds_element :
    (∀ (t : String) (attrs listeners : List (String × JSVal))
        (children : List JSVal),
      createElement t (.obj attrs) (.obj listeners) (.arr children)
        = { tag := t, props := attrs,
            regs := listeners.map registrationOfEntry,
            childNodes := children.map appendArg })
    ∧ createElement "div" (.obj [("id", .str "x")]) (.obj [("click", .fn 0)])
        (.arr [.str "hi"])
        = { tag := "div", props := [("id", JSVal.str "x")],
            regs := [{ eventName := "click", callback := JSVal.fn 0,
                       optionsArg := none }],
            childNodes := [ChildNode.textNode "hi"] } :=
  ⟨createElement_eq, rfl⟩

/-- C6: `elem` is exactly the composition of the disambiguator and the
explicit builder, and `elem "div"` with all arguments omitted produces a
`div` element with no properties, no registrations, and no children. -/
theorem elem_is_composition :
    (∀ (t : String) (a1 a2 a3 : JSVal),
      elem t a1 a2 a3
        = createElement t (distinguishElemArgs a1 a2 a3).1
            (distinguishElemArgs a1 a2 a3).2.1
            (distinguishElemArgs a1 a2 a3).2.2)
    ∧ elem "div" .undefinedVal .undefinedVal .undefinedVal
        = { tag := "div", props := [], regs := [], childNodes := [] } :=
  ⟨fun _ _ _ _ => rfl, rfl⟩

/-- C7: the disambiguator validates nothing and raises nothing: it is a
total function, and any present, non-list-shaped `arg1` — whatever its
shape — is taken as the properties map, any present, non-list-shaped
`arg2` as the listeners map. -/
theorem distinguishAriamisArgs_no_validation (a1 a2 a3 : JSVal)
    (h1 : jsIsArray a1 = false) (h2 : isUndefined a1 = false)
    (h3 : jsIsArray a2 = false) (h4 : isUndefined a2 = false) :
    distinguishAriamisArgs a1 a2 a3
      = (a1, a2, if isUndefined a3 then JSVal.arr [] else a3) := by
  simp only [distinguishAriamisArgs]
  split_ifs <;> simp_all

/-- C7 witness: even a number in the first slot and a bare string in the
second are accepted without validation and land in the properties and
listeners slots. -/
theorem distinguishAriamisArgs_no_validation_witness :
    jsIsArray (JSVal.num 5) = false ∧ isUndefined (JSVal.num 5) = false
    ∧ jsIsArray (JSVal.str "oops") = false
    ∧ isUndefined (JSVal.str "oops") = false
    ∧ distinguishAriamisArgs (.num 5) (.str "oops") .undefinedVal
        = (JSVal.num 5, JSVal.str "oops", JSVal.arr []) :=
  ⟨rfl, rfl, rfl, rfl, by
    have h := distinguishAriamisArgs_no_validation (.num 5) (.str "oops") .undefinedVal
      rfl rfl rfl rfl
    simpa [isUndefined] using h⟩

/-- C8: the disambiguator only classifies and copies: each output slot is
either its fresh empty default or exactly one of the argument values,
unchanged. -/
theorem distinguishAriamisArgs_copies_references (a1 a2 a3 : JSVal) :
    ((distinguishAriamisArgs a1 a2 a3).1 = JSVal.obj []
        ∨ (distinguishAriamisArgs a1 a2 a3).1 = a1)
    ∧ ((distinguishAriamisArgs a1 a2 a3).2.1 = JSVal.obj []
        ∨ (distinguishAriamisArgs a1 a2 a3).2.1 = a2)
    ∧ ((distinguishAriamisArgs a1 a2 a3).2.2 = JSVal.arr []
        ∨ (distinguishAriamisArgs a1 a2 a3).2.2 = a1
        ∨ (distinguishAriamisArgs a1 a2 a3).2.2 = a2
        ∨ (distinguishAriamisArgs a1 a2 a3).2.2 = a3) := by
  simp only [distinguishAriamisArgs]
  split_ifs <;> simp_all

/-- C9: the tag-bound constructor is pure partial application: `tag t`
applied to any arguments returns exactly what `elem t` returns on them. -/
theorem tag_is_partial_application :
    ∀ (t : String) (a1 a2 a3 : JSVal), tag t a1 a2 a3 = elem t a1 a2 a3 :=
  fun _ _ _ _ => rfl

/-- C10: a listener-map entry that is not a function (and is a defined
value, so that property access does not fault in the host) is
unconditionally registered as a handler/options pair, with
`entry.handler` and `entry.options` read exactly as stored — in
particular, a pair without an `options` field is registered with an
`undefined` options argument. -/
theorem nonfunction_listener_entry_as_pair (t k : String) (v : JSVal)
    (rest : List (String × JSVal))
    (hfn : jsIsFunction v = false) (_hdef : isUndefined v = false) :
    (createElement t (.obj []) (.obj ((k, v) :: rest)) (.arr [])).regs
      = { eventName := k, callback := getProp v "handler",
          optionsArg := some (getProp v "options") }
        :: (createElement t (.obj []) (.obj rest) (.arr [])).regs := by
  simp [createElement_eq, registrationOfEntry, hfn]

/-- C10 witness: the entry `{handler: fn}` — no `options` field — is not a
function, is defined, and is registered with callback `fn` and an
`undefined` options argument. -/
theorem nonfunction_listener_entry_as_pair_witness :
    jsIsFunction (JSVal.obj [("handler", JSVal.fn 0)]) = false
    ∧ isUndefined (JSVal.obj [("handler", JSVal.fn 0)]) = false
    ∧ (createElement "div" (.obj [])
        (.obj [("click", JSVal.obj [("handler", JSVal.fn 0)])]) (.arr [])).regs
      = [{ eventName := "click", callback := JSVal.fn 0,
           optionsArg := some JSVal.undefinedVal }] :=
  ⟨rfl, rfl, by
    have h := nonfunction_listener_entry_as_pair "div" "click"
      (JSVal.obj [("handler", JSVal.fn 0)]) [] rfl rfl
    simpa [createElement_eq, getProp] using h⟩

end Ariamis
